import Mathlib

/-!
# Verification of graphlab's shared termination detector and synchronous scope factory

Shallow embedding of:
* `src/graphlab/util/shared_termination.hpp` — the condition-variable based
  shared termination checker (`shared_termination`), modelled as a state
  machine over `TermState N` with one worker-indexed phase per thread, an
  explicit lock holder, and the set of threads parked on the condition
  variable tracked through the phases.
* `src/graphlab/scope/synchronous_scope_factory.hpp` — the double-buffered
  scope factory, modelled as a pure record of graph handles plus a pool of
  scope slots.

`size_t` counters are modelled as `Nat`; the only subtraction sites
(`numactive--`, `trying_to_sleep.dec()`) are reached, on states satisfying
the protocol invariant proved below, only when the counter is positive, so
`Nat` truncation never differs from the machine decrement there.
-/

namespace GraphLab

/-- The position of one worker thread inside the sleep protocol of
`shared_termination`:
* `active` — not between `begin_sleep_critical_section` and the matching
  `cancel`/`end` return;
* `acquiring` — has executed `trying_to_sleep.inc()` and `sleeping[cpuid] = true`
  in `begin_sleep_critical_section` and is blocked on `m.lock()`;
* `inCS` — holds the mutex `m` (the sleep-decision critical section);
* `waiting` — parked in `cond.wait(m)` inside `end_sleep_critical_section`
  (the mutex is released while parked);
* `wokenWantLock` — woken by a broadcast (or spuriously), re-acquiring `m`
  before running the tail of `end_sleep_critical_section`. -/
inductive Phase where
  | active
  | acquiring
  | inCS
  | waiting
  | wokenWantLock
deriving DecidableEq, Repr

/-- A worker in this phase is parked on (or was just woken from) the
condition variable `cond`, i.e. it has decremented `numactive` and has not
yet re-incremented it or returned. -/
def Phase.parked : Phase → Bool
  | .waiting => true
  | .wokenWantLock => true
  | _ => false

/-- State of one `shared_termination` object for `N` worker threads
(`N` = the `ncpus` passed to the constructor), together with the control
state of the workers (`phase`) and of the mutex (`lockHolder`).
Fields mirror the private members of the class:
`numactive`, `numcpus`, `trying_to_sleep` (`atomic<size_t>`),
`sleeping` (`std::vector<char>` of length `ncpus`), `done`. -/
structure TermState (N : Nat) where
  numactive : Nat
  numcpus : Nat
  trying_to_sleep : Nat
  sleeping : Fin N → Bool
  done : Bool
  phase : Fin N → Phase
  lockHolder : Option (Fin N)

/-- `shared_termination::shared_termination(size_t ncpus)`: all workers
start active, `numactive = numcpus = ncpus`, `done = false`, hint counter
zero, all sleeping flags cleared. -/
def sharedTerminationInit (N : Nat) : TermState N :=
  { numactive := N
    numcpus := N
    trying_to_sleep := 0
    sleeping := fun _ => false
    done := false
    phase := fun _ => Phase.active
    lockHolder := none }

/-- `shared_termination::reset()`: `numactive = sleeping.size()`,
`numcpus = sleeping.size()` (the vector is sized `ncpus = N` at
construction and never resized), `done = false`, hint counter zeroed and
every sleeping flag cleared.  It does not touch the mutex, the condition
variable, or where any worker currently is. -/
def reset (s : TermState N) : TermState N :=
  { s with
    numactive := N
    numcpus := N
    done := false
    trying_to_sleep := 0
    sleeping := fun _ => false }

/-- First half of `begin_sleep_critical_section(cpuid)`:
`trying_to_sleep.inc(); sleeping[cpuid] = true;` — the worker then blocks
on `m.lock()`. -/
def begin_sleep_cs_start (s : TermState N) (w : Fin N) : TermState N :=
  { s with
    trying_to_sleep := s.trying_to_sleep + 1
    sleeping := Function.update s.sleeping w true
    phase := Function.update s.phase w Phase.acquiring }

/-- Second half of `begin_sleep_critical_section(cpuid)`: `m.lock()`
succeeds (only possible when no thread holds `m`). -/
def begin_sleep_cs_acquire (s : TermState N) (w : Fin N) : TermState N :=
  { s with
    lockHolder := some w
    phase := Function.update s.phase w Phase.inCS }

/-- `cancel_sleep_critical_section(cpuid)`:
`m.unlock(); sleeping[cpuid] = false; trying_to_sleep.dec();`.
`numactive` is untouched. -/
def cancel_sleep_critical_section (s : TermState N) (w : Fin N) : TermState N :=
  { s with
    lockHolder := none
    sleeping := Function.update s.sleeping w false
    trying_to_sleep := s.trying_to_sleep - 1
    phase := Function.update s.phase w Phase.active }

/-- `cond.broadcast()`: every thread parked in `cond.wait(m)` is woken and
starts re-acquiring the mutex. -/
def broadcastPhases (f : Fin N → Phase) : Fin N → Phase :=
  fun v => if f v = Phase.waiting then Phase.wokenWantLock else f v

/-- `end_sleep_critical_section(cpuid)` up to the point where the worker
either returns or parks in `cond.wait(m)` (the caller holds `m`):
* if `done` is set: `m.unlock(); trying_to_sleep.dec(); sleeping[cpuid] = false;
  return true;` — result `(state, some true)`;
* otherwise `numactive--`; if it reached `0`: `done = true; cond.broadcast();`
  then fall through to `m.unlock(); trying_to_sleep.dec();
  sleeping[cpuid] = false; return done;` — result `(state, some true)`;
* otherwise `cond.wait(m)` releases the mutex and parks — result
  `(state, none)`, continued by `end_sleep_wake`.
On every state reachable under the protocol, `numactive ≥ 1` holds at the
decrement (proved below), so the `Nat` subtraction agrees with the
`size_t` decrement. -/
def end_sleep_critical_section (s : TermState N) (w : Fin N) :
    TermState N × Option Bool :=
  if s.done then
    ({ s with
        lockHolder := none
        trying_to_sleep := s.trying_to_sleep - 1
        sleeping := Function.update s.sleeping w false
        phase := Function.update s.phase w Phase.active }, some true)
  else if s.numactive - 1 = 0 then
    ({ s with
        numactive := 0
        done := true
        phase := Function.update (broadcastPhases s.phase) w Phase.active
        lockHolder := none
        trying_to_sleep := s.trying_to_sleep - 1
        sleeping := Function.update s.sleeping w false }, some true)
  else
    ({ s with
        numactive := s.numactive - 1
        lockHolder := none
        phase := Function.update s.phase w Phase.waiting }, none)

/-- Tail of `end_sleep_critical_section(cpuid)` after the worker returns
from `cond.wait(m)` (it re-acquired `m`, which must have been free):
`if (!done) numactive++; m.unlock(); trying_to_sleep.dec();
sleeping[cpuid] = false; return done;`.  The returned `Bool` is the
function's return value. -/
def end_sleep_wake (s : TermState N) (w : Fin N) : TermState N × Bool :=
  ({ s with
      numactive := if s.done then s.numactive else s.numactive + 1
      lockHolder := none
      trying_to_sleep := s.trying_to_sleep - 1
      sleeping := Function.update s.sleeping w false
      phase := Function.update s.phase w Phase.active }, s.done)

/-- `new_job()`: if `trying_to_sleep.value > 0`, lock `m`, broadcast when
`numactive < numcpus`, unlock; otherwise return at once without touching
the mutex.  The returned `Bool` records whether the lock was acquired. -/
def new_job (s : TermState N) : TermState N × Bool :=
  if 0 < s.trying_to_sleep then
    (if s.numactive < s.numcpus then
        { s with phase := broadcastPhases s.phase }
      else s, true)
  else (s, false)

/-- `new_job(size_t cpuhint)`: as `new_job()`, but the fast-path test is
`sleeping[cpuhint]` instead of the hint counter. -/
def new_job_hint (s : TermState N) (cpuhint : Fin N) : TermState N × Bool :=
  if s.sleeping cpuhint then
    (if s.numactive < s.numcpus then
        { s with phase := broadcastPhases s.phase }
      else s, true)
  else (s, false)

/-- `num_active()` accessor. -/
def num_active (s : TermState N) : Nat :=
  s.numactive

/-- One atomic step of the whole system (the detector plus its `N` worker
threads plus any job producer).  Each constructor is one indivisible piece
of the C++ code; the mutex discipline is explicit: entering the critical
section requires `lockHolder = none`, and steps taken while holding the
lock require `lockHolder = some w`.  `spurious` models a spurious wakeup
from `cond.wait`, which the code tolerates. -/
inductive Step : TermState N → TermState N → Prop where
  | begin_start (s : TermState N) (w : Fin N) :
      s.phase w = Phase.active → Step s (begin_sleep_cs_start s w)
  | begin_acquire (s : TermState N) (w : Fin N) :
      s.phase w = Phase.acquiring → s.lockHolder = none →
      Step s (begin_sleep_cs_acquire s w)
  | cancel (s : TermState N) (w : Fin N) :
      s.phase w = Phase.inCS → s.lockHolder = some w →
      Step s (cancel_sleep_critical_section s w)
  | end_enter (s : TermState N) (w : Fin N) :
      s.phase w = Phase.inCS → s.lockHolder = some w →
      Step s (end_sleep_critical_section s w).1
  | wake (s : TermState N) (w : Fin N) :
      s.phase w = Phase.wokenWantLock → s.lockHolder = none →
      Step s (end_sleep_wake s w).1
  | spurious (s : TermState N) (w : Fin N) :
      s.phase w = Phase.waiting →
      Step s { s with phase := Function.update s.phase w Phase.wokenWantLock }
  | job (s : TermState N) :
      (s.trying_to_sleep = 0 ∨ s.lockHolder = none) → Step s (new_job s).1
  | job_hint (s : TermState N) (h : Fin N) :
      (s.sleeping h = false ∨ s.lockHolder = none) →
      Step s (new_job_hint s h).1

/-- Number of workers currently parked on (or woken from, but not yet past)
the condition variable: exactly those that decremented `numactive` and have
not re-incremented it or exited. -/
def countParked (f : Fin N → Phase) : Nat :=
  ∑ w : Fin N, if (f w).parked = true then 1 else 0

/-- The protocol invariant of `shared_termination`:
while `done` is false, `numactive` plus the number of parked workers equals
`N` (the comment block in `end_sleep_critical_section` asserts exactly
this: `numactive` counts the threads outside the parked region); once
`done` is true, `numactive` is `0` and stays there. -/
def Inv (s : TermState N) : Prop :=
  (s.done = false → s.numactive + countParked s.phase = N) ∧
  (s.done = true → s.numactive = 0)

instance (s : TermState N) : Decidable (Inv s) := by
  unfold Inv
  infer_instance

/-- States reachable under the intended use: from a fresh construction, by
protocol steps, with `reset()` invoked only at a barrier where every worker
is out of the sleep protocol (spec: "used between successive synchronous
super-steps", "torn down with it"). -/
inductive Reachable : TermState N → Prop where
  | init : Reachable (sharedTerminationInit N)
  | step {s s' : TermState N} : Reachable s → Step s s' → Reachable s'
  | reset_at_barrier {s : TermState N} :
      Reachable s → (∀ w, s.phase w = Phase.active) → Reachable (reset s)

lemma countParked_update (f : Fin N → Phase) (w : Fin N) (p : Phase) :
    countParked (Function.update f w p) + (if (f w).parked = true then 1 else 0)
      = countParked f + (if p.parked = true then 1 else 0) := by
  unfold countParked
  have h1 : (∑ x : Fin N, if ((Function.update f w p) x).parked = true then 1 else 0)
      = (if p.parked = true then 1 else 0)
        + ∑ x ∈ Finset.univ.erase w, if (f x).parked = true then 1 else 0 := by
    rw [← Finset.add_sum_erase Finset.univ _ (Finset.mem_univ w)]
    congr 1
    · simp
    · refine Finset.sum_congr rfl fun x hx => ?_
      rw [Function.update_noteq (Finset.ne_of_mem_erase hx)]
  have h2 := (Finset.add_sum_erase Finset.univ
    (fun x => if (f x).parked = true then 1 else 0) (Finset.mem_univ w)).symm
  simp only at h2
  rw [h1, h2]
  omega

lemma countParked_update_same (f : Fin N → Phase) (w : Fin N) (p : Phase)
    (h : p.parked = (f w).parked) :
    countParked (Function.update f w p) = countParked f := by
  have := countParked_update f w p
  rw [h] at this
  omega

lemma countParked_broadcast (f : Fin N → Phase) :
    countParked (broadcastPhases f) = countParked f := by
  unfold countParked broadcastPhases
  refine Finset.sum_congr rfl fun v _ => ?_
  cases hv : f v <;> simp [hv, Phase.parked]

lemma countParked_pos (f : Fin N → Phase) (w : Fin N)
    (h : (f w).parked = true) : 1 ≤ countParked f := by
  unfold countParked
  rw [← Finset.add_sum_erase Finset.univ _ (Finset.mem_univ w), h]
  simp

lemma countParked_all_active (f : Fin N → Phase)
    (h : ∀ w, f w = Phase.active) : countParked f = 0 := by
  unfold countParked
  refine Finset.sum_eq_zero fun v _ => ?_
  rw [h v]
  simp [Phase.parked]

lemma new_job_cases (s : TermState N) :
    (new_job s).1 = s ∨
      (new_job s).1 = { s with phase := broadcastPhases s.phase } := by
  unfold new_job
  split
  · split
    · right; rfl
    · left; rfl
  · left; rfl

lemma new_job_hint_cases (s : TermState N) (h : Fin N) :
    (new_job_hint s h).1 = s ∨
      (new_job_hint s h).1 = { s with phase := broadcastPhases s.phase } := by
  unfold new_job_hint
  split
  · split
    · right; rfl
    · left; rfl
  · left; rfl

lemma inv_broadcast {s : TermState N} (hInv : Inv s) :
    Inv { s with phase := broadcastPhases s.phase } := by
  obtain ⟨h1, h2⟩ := hInv
  refine ⟨fun hd => ?_, fun hd => h2 hd⟩
  rw [countParked_broadcast]
  exact h1 hd

lemma inv_init : Inv (sharedTerminationInit N) := by
  refine ⟨fun _ => ?_, fun hd => ?_⟩
  · simp only [sharedTerminationInit]
    rw [countParked_all_active _ fun _ => rfl]
    omega
  · simp [sharedTerminationInit] at hd

lemma inv_reset {s : TermState N} (hq : ∀ w, s.phase w = Phase.active) :
    Inv (reset s) := by
  refine ⟨fun _ => ?_, fun hd => ?_⟩
  · simp only [reset]
    rw [countParked_all_active _ hq]
    omega
  · simp [reset] at hd

lemma done_monotone_step {s s' : TermState N} (h : Step s s')
    (hd : s.done = true) : s'.done = true := by
  cases h with
  | begin_start w hw => exact hd
  | begin_acquire w hw hl => exact hd
  | cancel w hw hl => exact hd
  | end_enter w hw hl =>
      simp [end_sleep_critical_section, hd]
  | wake w hw hl => exact hd
  | spurious w hw => exact hd
  | job hg =>
      rcases new_job_cases s with he | he <;> rw [he] <;> exact hd
  | job_hint hh hg =>
      rcases new_job_hint_cases s hh with he | he <;> rw [he] <;> exact hd

lemma inv_step {s s' : TermState N} (hInv : Inv s) (h : Step s s') :
    Inv s' := by
  obtain ⟨h1, h2⟩ := hInv
  cases h with
  | begin_start w hw =>
      refine ⟨fun hd => ?_, fun hd => h2 hd⟩
      simp only [begin_sleep_cs_start]
      rw [countParked_update_same s.phase w Phase.acquiring (by simp [hw, Phase.parked])]
      exact h1 hd
  | begin_acquire w hw hl =>
      refine ⟨fun hd => ?_, fun hd => h2 hd⟩
      simp only [begin_sleep_cs_acquire]
      rw [countParked_update_same s.phase w Phase.inCS (by simp [hw, Phase.parked])]
      exact h1 hd
  | cancel w hw hl =>
      refine ⟨fun hd => ?_, fun hd => h2 hd⟩
      simp only [cancel_sleep_critical_section]
      rw [countParked_update_same s.phase w Phase.active (by simp [hw, Phase.parked])]
      exact h1 hd
  | end_enter w hw hl =>
      by_cases hdone : s.done = true
      · refine ⟨fun hd => ?_, fun _ => ?_⟩
        · simp [end_sleep_critical_section, hdone] at hd
        · simp only [end_sleep_critical_section, hdone, if_true]
          exact h2 hdone
      · have hdf : s.done = false := by
          simpa using hdone
        by_cases hna : s.numactive - 1 = 0
        · refine ⟨fun hd => ?_, fun _ => ?_⟩
          · simp [end_sleep_critical_section, hdf, hna] at hd
          · simp [end_sleep_critical_section, hdf, hna]
        · refine ⟨fun _ => ?_, fun hd => ?_⟩
          · simp only [end_sleep_critical_section, hdf, Bool.false_eq_true,
              if_false, hna, if_neg]
            have e := countParked_update s.phase w Phase.waiting
            rw [hw] at e
            simp [Phase.parked] at e
            have hb := h1 hdf
            omega
          · simp [end_sleep_critical_section, hdf, hna] at hd
  | wake w hw hl =>
      by_cases hdone : s.done = true
      · refine ⟨fun hd => ?_, fun _ => ?_⟩
        · simp [end_sleep_wake, hdone] at hd
        · simp only [end_sleep_wake, hdone, if_true]
          exact h2 hdone
      · have hdf : s.done = false := by
          simpa using hdone
        refine ⟨fun _ => ?_, fun hd => ?_⟩
        · simp only [end_sleep_wake, hdf, Bool.false_eq_true, if_false]
          have e := countParked_update s.phase w Phase.active
          rw [hw] at e
          simp [Phase.parked] at e
          have hb := h1 hdf
          omega
        · simp [end_sleep_wake, hdf] at hd
  | spurious w hw =>
      refine ⟨fun hd => ?_, fun hd => h2 hd⟩
      rw [countParked_update_same s.phase w Phase.wokenWantLock (by simp [hw, Phase.parked])]
      exact h1 hd
  | job hg =>
      rcases new_job_cases s with he | he <;> rw [he]
      · exact ⟨h1, h2⟩
      · exact inv_broadcast ⟨h1, h2⟩
  | job_hint hh hg =>
      rcases new_job_hint_cases s hh with he | he <;> rw [he]
      · exact ⟨h1, h2⟩
      · exact inv_broadcast ⟨h1, h2⟩

lemma reachable_inv {s : TermState N} (h : Reachable s) : Inv s := by
  induction h with
  | init => exact inv_init
  | step _ hstep ih => exact inv_step ih hstep
  | reset_at_barrier _ hq _ => exact inv_reset hq

/-- Two workers; worker 0 holds the lock inside the critical section while
worker 1 is parked on the condition variable; one other worker already
decremented, so `numactive = 1`. -/
def exDeclare : TermState 2 :=
  { numactive := 1
    numcpus := 2
    trying_to_sleep := 2
    sleeping := fun _ => true
    done := false
    phase := fun w => if w = 0 then Phase.inCS else Phase.waiting
    lockHolder := some 0 }

/-- Two workers; worker 1 is parked on the condition variable, worker 0 is
active; the mutex is free. -/
def exWait : TermState 2 :=
  { numactive := 1
    numcpus := 2
    trying_to_sleep := 1
    sleeping := fun w => if w = 0 then false else true
    done := false
    phase := fun w => if w = 0 then Phase.active else Phase.waiting
    lockHolder := none }

/-- One worker; termination has been declared (`done = true`,
`numactive = 0`) and the worker is back outside the protocol. -/
def exDone : TermState 1 :=
  { numactive := 0
    numcpus := 1
    trying_to_sleep := 0
    sleeping := fun _ => false
    done := true
    phase := fun _ => Phase.active
    lockHolder := none }

/-- C1: `done` is set to true only by `end_sleep_critical_section`, only
while holding the detector's mutex, and only when `numactive` reaches 0
there; and when `done = false` and `numactive = 1`, the call decrements
`numactive` to 0, sets `done`, broadcasts to every waiter, and returns
true. -/
theorem end_cs_sets_done_only_under_lock_at_zero :
    (∀ (N : Nat) (s s' : TermState N), Step s s' → s.done = false →
      s'.done = true →
      ∃ w, s.lockHolder = some w ∧ s.phase w = Phase.inCS ∧
        s' = (end_sleep_critical_section s w).1 ∧ s'.numactive = 0) ∧
    (∀ (N : Nat) (s : TermState N) (w : Fin N), s.done = false →
      s.numactive = 1 →
      (end_sleep_critical_section s w).2 = some true ∧
      (end_sleep_critical_section s w).1.done = true ∧
      (end_sleep_critical_section s w).1.numactive = 0 ∧
      ∀ v, v ≠ w → s.phase v = Phase.waiting →
        (end_sleep_critical_section s w).1.phase v = Phase.wokenWantLock) := by
  constructor
  · intro N s s' hstep hdf hdt
    cases hstep with
    | begin_start w hw => simp [begin_sleep_cs_start, hdf] at hdt
    | begin_acquire w hw hl => simp [begin_sleep_cs_acquire, hdf] at hdt
    | cancel w hw hl => simp [cancel_sleep_critical_section, hdf] at hdt
    | end_enter w hw hl =>
        refine ⟨w, hl, hw, rfl, ?_⟩
        by_cases hna : s.numactive - 1 = 0
        · simp [end_sleep_critical_section, hdf, hna]
        · simp [end_sleep_critical_section, hdf, hna] at hdt
    | wake w hw hl => simp [end_sleep_wake, hdf] at hdt
    | spurious w hw => simp [hdf] at hdt
    | job hg =>
        rcases new_job_cases s with he | he <;> rw [he] at hdt <;>
          simp [hdf] at hdt
    | job_hint hh hg =>
        rcases new_job_hint_cases s hh with he | he <;> rw [he] at hdt <;>
          simp [hdf] at hdt
  · intro N s w hdf hna1
    have hna : s.numactive - 1 = 0 := by omega
    refine ⟨?_, ?_, ?_, fun v hvw hv => ?_⟩
    · simp [end_sleep_critical_section, hdf, hna]
    · simp [end_sleep_critical_section, hdf, hna]
    · simp [end_sleep_critical_section, hdf, hna]
    · simp [end_sleep_critical_section, hdf, hna,
        Function.update_noteq hvw, broadcastPhases, hv]

/-- Witness for C1 on the concrete two-worker state `exDeclare`. -/
theorem end_cs_sets_done_only_under_lock_at_zero_witness :
    (∃ w, exDeclare.lockHolder = some w ∧ exDeclare.phase w = Phase.inCS ∧
      (end_sleep_critical_section exDeclare (0 : Fin 2)).1
        = (end_sleep_critical_section exDeclare w).1 ∧
      (end_sleep_critical_section exDeclare (0 : Fin 2)).1.numactive = 0) ∧
    (end_sleep_critical_section exDeclare (0 : Fin 2)).2 = some true ∧
    (end_sleep_critical_section exDeclare (0 : Fin 2)).1.done = true :=
  ⟨end_cs_sets_done_only_under_lock_at_zero.1 2 exDeclare
      (end_sleep_critical_section exDeclare (0 : Fin 2)).1
      (Step.end_enter exDeclare (0 : Fin 2) (by decide) (by decide))
      (by decide) (by decide),
    (end_cs_sets_done_only_under_lock_at_zero.2 2 exDeclare (0 : Fin 2)
      (by decide) (by decide)).1,
    (end_cs_sets_done_only_under_lock_at_zero.2 2 exDeclare (0 : Fin 2)
      (by decide) (by decide)).2.1⟩

/-- C2: no lost wakeup — `new_job()` under a positive hint counter (and
`new_job(hint)` naming a worker whose sleeping flag is set) acquires the
lock and, since `numactive < numcpus` whenever some worker is parked,
broadcasts; a parked worker so woken re-increments `numactive` and its
`end_sleep_critical_section` call returns `false`; conversely both
`new_job` variants return immediately, without the lock, when the fast-path
test fails. -/
theorem new_job_wakes_parked_worker :
    (∀ (N : Nat) (s : TermState N) (p : Fin N),
      Inv s → s.numcpus = N → s.done = false → s.phase p = Phase.waiting →
      0 < s.trying_to_sleep →
        (new_job s).2 = true ∧
        (new_job s).1.phase p = Phase.wokenWantLock ∧
        (end_sleep_wake (new_job s).1 p).2 = false ∧
        (end_sleep_wake (new_job s).1 p).1.numactive
          = (new_job s).1.numactive + 1) ∧
    (∀ (N : Nat) (s : TermState N) (p h : Fin N),
      Inv s → s.numcpus = N → s.done = false → s.phase p = Phase.waiting →
      s.sleeping h = true →
        (new_job_hint s h).2 = true ∧
        (new_job_hint s h).1.phase p = Phase.wokenWantLock ∧
        (end_sleep_wake (new_job_hint s h).1 p).2 = false ∧
        (end_sleep_wake (new_job_hint s h).1 p).1.numactive
          = (new_job_hint s h).1.numactive + 1) ∧
    (∀ (N : Nat) (s : TermState N), s.trying_to_sleep = 0 →
      new_job s = (s, false)) ∧
    (∀ (N : Nat) (s : TermState N) (h : Fin N), s.sleeping h = false →
      new_job_hint s h = (s, false)) := by
  refine ⟨?_, ?_, ?_, ?_⟩
  · intro N s p hInv hcpu hdf hpw htr
    have hcnt := countParked_pos s.phase p (by rw [hpw]; rfl)
    have hb := hInv.1 hdf
    have hlt : s.numactive < s.numcpus := by
      rw [hcpu]
      omega
    have hnj : (new_job s).1 = { s with phase := broadcastPhases s.phase } := by
      simp [new_job, htr, hlt]
    refine ⟨by simp [new_job, htr], ?_, ?_, ?_⟩
    · rw [hnj]
      simp [broadcastPhases, hpw]
    · rw [hnj]
      simp [end_sleep_wake, hdf]
    · rw [hnj]
      simp [end_sleep_wake, hdf]
  · intro N s p h hInv hcpu hdf hpw hsl
    have hcnt := countParked_pos s.phase p (by rw [hpw]; rfl)
    have hb := hInv.1 hdf
    have hlt : s.numactive < s.numcpus := by
      rw [hcpu]
      omega
    have hnj : (new_job_hint s h).1
        = { s with phase := broadcastPhases s.phase } := by
      simp [new_job_hint, hsl, hlt]
    refine ⟨by simp [new_job_hint, hsl], ?_, ?_, ?_⟩
    · rw [hnj]
      simp [broadcastPhases, hpw]
    · rw [hnj]
      simp [end_sleep_wake, hdf]
    · rw [hnj]
      simp [end_sleep_wake, hdf]
  · intro N s h0
    simp [new_job, h0]
  · intro N s h hs
    simp [new_job_hint, hs]

/-- Witness for C2 on the concrete two-worker state `exWait` (worker 1
parked) and the fast paths on `exWait` and a fresh detector. -/
theorem new_job_wakes_parked_worker_witness :
    ((new_job exWait).2 = true ∧
      (new_job exWait).1.phase (1 : Fin 2) = Phase.wokenWantLock ∧
      (end_sleep_wake (new_job exWait).1 (1 : Fin 2)).2 = false ∧
      (end_sleep_wake (new_job exWait).1 (1 : Fin 2)).1.numactive
        = (new_job exWait).1.numactive + 1) ∧
    ((new_job_hint exWait (1 : Fin 2)).2 = true ∧
      (new_job_hint exWait (1 : Fin 2)).1.phase (1 : Fin 2)
        = Phase.wokenWantLock ∧
      (end_sleep_wake (new_job_hint exWait (1 : Fin 2)).1 (1 : Fin 2)).2
        = false ∧
      (end_sleep_wake (new_job_hint exWait (1 : Fin 2)).1
          (1 : Fin 2)).1.numactive
        = (new_job_hint exWait (1 : Fin 2)).1.numactive + 1) ∧
    new_job (sharedTerminationInit 1) = (sharedTerminationInit 1, false) ∧
    new_job_hint exWait (0 : Fin 2) = (exWait, false) :=
  ⟨new_job_wakes_parked_worker.1 2 exWait (1 : Fin 2) (by decide) rfl
      (by decide) (by decide) (by decide),
    new_job_wakes_parked_worker.2.1 2 exWait (1 : Fin 2) (1 : Fin 2)
      (by decide) rfl (by decide) (by decide) (by decide),
    new_job_wakes_parked_worker.2.2.1 1 (sharedTerminationInit 1) rfl,
    new_job_wakes_parked_worker.2.2.2 2 exWait (0 : Fin 2) (by decide)⟩

/-- C3 counterexample: `reset()` sets `done` back to `false`, so the claim
that every operation including `reset` leaves a true `done` true fails on
the concrete state `exDone`. -/
theorem reset_clears_done_cex :
    exDone.done = true ∧ (reset exDone).done = false :=
  ⟨rfl, rfl⟩

/-- C3 (amended): `done` is monotonic across every step of the worker
protocol — `begin_sleep_critical_section` (both halves),
`cancel_sleep_critical_section`, `end_sleep_critical_section` (entry,
wait, and wake-up), `new_job` and `new_job(hint)`; `reset`, which
deliberately re-arms the detector by clearing `done`, is excluded. -/
theorem done_monotone_under_protocol_steps :
    ∀ (N : Nat) (s s' : TermState N), Step s s' → s.done = true →
      s'.done = true :=
  fun _ _ _ h hd => done_monotone_step h hd

/-- Witness for the amended C3: a `begin_sleep_critical_section` start step
taken from the terminated state `exDone` keeps `done` true. -/
theorem done_monotone_under_protocol_steps_witness :
    (begin_sleep_cs_start exDone (0 : Fin 1)).done = true :=
  done_monotone_under_protocol_steps 1 exDone _
    (Step.begin_start exDone (0 : Fin 1) rfl) rfl

/-- C5: on every state reachable by the protocol from a fresh or
barrier-reset detector, `num_active()` lies in `[0, N]`. -/
theorem numactive_in_range_of_reachable :
    ∀ (N : Nat) (s : TermState N), Reachable s →
      0 ≤ num_active s ∧ num_active s ≤ N := by
  intro N s h
  have hInv := reachable_inv h
  refine ⟨Nat.zero_le _, ?_⟩
  unfold num_active
  by_cases hd : s.done = true
  · have := hInv.2 hd
    omega
  · have hdf : s.done = false := by
      simpa using hd
    have := hInv.1 hdf
    omega

/-- Witness for C5 at the freshly constructed two-worker detector. -/
theorem numactive_in_range_of_reachable_witness :
    0 ≤ num_active (sharedTerminationInit 2) ∧
      num_active (sharedTerminationInit 2) ≤ 2 :=
  numactive_in_range_of_reachable 2 _ Reachable.init

/-- C6: when `done` is already true, `end_sleep_critical_section` returns
true on the fast-exit path and leaves `numactive` unchanged. -/
theorem end_cs_fast_exit_when_done :
    ∀ (N : Nat) (s : TermState N) (w : Fin N), s.done = true →
      (end_sleep_critical_section s w).2 = some true ∧
      (end_sleep_critical_section s w).1.numactive = s.numactive := by
  intro N s w hd
  constructor <;> simp [end_sleep_critical_section, hd]

/-- Witness for C6 on the terminated one-worker state `exDone`. -/
theorem end_cs_fast_exit_when_done_witness :
    (end_sleep_critical_section exDone (0 : Fin 1)).2 = some true ∧
      (end_sleep_critical_section exDone (0 : Fin 1)).1.numactive
        = exDone.numactive :=
  end_cs_fast_exit_when_done 1 exDone (0 : Fin 1) rfl

/-- C7: from any prior state, `reset()` establishes
`numactive = N = numcpus`, `done = false`, a zero hint counter and all
sleeping flags false. -/
theorem reset_reinitializes_state :
    ∀ (N : Nat) (s : TermState N),
      (reset s).numactive = N ∧ (reset s).numactive = (reset s).numcpus ∧
      (reset s).done = false ∧ (reset s).trying_to_sleep = 0 ∧
      ∀ i, (reset s).sleeping i = false :=
  fun _ _ => ⟨rfl, rfl, rfl, rfl, fun _ => rfl⟩

/-- Modelled from the spec: `synchronous_scope<Graph>` is declared in
`src/graphlab/scope/synchronous_scope.hpp`, which is not part of this
source fragment.  Per the spec (§3 scope pool, §6 scope collaborator), a
scope holds non-owning references to the source graph, the dest graph, the
vertex-data graph and the target vertex id; a default-constructed pool
slot is unbound (`none`) until its first `init`.  Graph handles are values
of the type `G` (pointer identity is value identity). -/
structure synchronous_scope (G : Type) where
  src_graph : Option G := none
  dest_graph : Option G := none
  vertex_data_graph : Option G := none
  vertex : Option Nat := none
deriving DecidableEq

/-- Modelled from the spec: the rebind operation
`scope.init(srcgraph, destgraph, vertexdatagraph, v)` — binds all four
references, overwriting whatever the slot held before. -/
def synchronous_scope.init {G : Type} (srcgraph destgraph vdatagraph : G)
    (v : Nat) : synchronous_scope G :=
  { src_graph := some srcgraph
    dest_graph := some destgraph
    vertex_data_graph := some vdatagraph
    vertex := some v }

/-- `synchronous_scope_factory<Graph>`: the three graph handles
(`Graph*` members `_srcgraph`, `_destgraph`, `_vertexdatagraph`) and the
pool `std::vector<synchronous_scope_type> scopes`, one slot per worker. -/
structure synchronous_scope_factory (G : Type) where
  _srcgraph : G
  _destgraph : G
  _vertexdatagraph : G
  scopes : List (synchronous_scope G)
deriving DecidableEq

/-- The constructor
`synchronous_scope_factory(srcgraph, destgraph, ncpus)`: stores the two
handles, sizes the pool to `ncpus` default slots, and sets
`_vertexdatagraph = _destgraph` ("vertexd data graph does not change"). -/
def synchronous_scope_factory.make {G : Type} (srcgraph destgraph : G)
    (ncpus : Nat) : synchronous_scope_factory G :=
  { _srcgraph := srcgraph
    _destgraph := destgraph
    _vertexdatagraph := destgraph
    scopes := List.replicate ncpus {} }

/-- `get_scope(cpuid, v, range)`: `assert(cpuid < scopes.size())` is
modelled as returning `none` on violation; otherwise rebind the slot for
`cpuid` in place and return the updated factory together with the address
of the pooled slot (`&scopes[cpuid]`, modelled by the index `cpuid`).  The
ignored `scope_range` argument is omitted — it has no effect. -/
def get_scope {G : Type} (f : synchronous_scope_factory G)
    (cpuid : Nat) (v : Nat) :
    Option (synchronous_scope_factory G × Nat) :=
  if cpuid < f.scopes.length then
    some ({ f with
      scopes := f.scopes.set cpuid
        (synchronous_scope.init f._srcgraph f._destgraph
          f._vertexdatagraph v) }, cpuid)
  else
    none

/-- `swap_graphs()`: exchanges the `_srcgraph` and `_destgraph` handles. -/
def swap_graphs {G : Type} (f : synchronous_scope_factory G) :
    synchronous_scope_factory G :=
  { f with
    _srcgraph := f._destgraph
    _destgraph := f._srcgraph }

/-- `get_src_graph()`. -/
def get_src_graph {G : Type} (f : synchronous_scope_factory G) : G :=
  f._srcgraph

/-- `get_dest_graph()`. -/
def get_dest_graph {G : Type} (f : synchronous_scope_factory G) : G :=
  f._destgraph

/-- `get_vertex_data_graph()`. -/
def get_vertex_data_graph {G : Type} (f : synchronous_scope_factory G) : G :=
  f._vertexdatagraph

/-- `release_scope(scope)`: a no-op (the pool owns the slots). -/
def release_scope {G : Type} (f : synchronous_scope_factory G)
    (scope : Nat) : synchronous_scope_factory G :=
  f

/-- `set_default_scope(range)`: a no-op; the `scope_range_enum` argument
(declared in `iscope_factory.hpp`, outside this fragment) is modelled as a
bare `Nat` since it is ignored. -/
def set_default_scope {G : Type} (f : synchronous_scope_factory G)
    (range : Nat) : synchronous_scope_factory G :=
  f

lemma swap_iterate {G : Type} (f : synchronous_scope_factory G) (n : Nat) :
    (get_src_graph (swap_graphs^[n] f)
      = if n % 2 = 0 then get_src_graph f else get_dest_graph f) ∧
    (get_dest_graph (swap_graphs^[n] f)
      = if n % 2 = 0 then get_dest_graph f else get_src_graph f) ∧
    get_vertex_data_graph (swap_graphs^[n] f)
      = get_vertex_data_graph f := by
  induction n generalizing f with
  | zero => simp
  | succ n ih =>
      obtain ⟨h1, h2, h3⟩ := ih (swap_graphs f)
      simp only [Function.iterate_succ_apply]
      refine ⟨?_, ?_, ?_⟩
      · rw [h1]
        by_cases hp : n % 2 = 0
        · have hp1 : ¬(n + 1) % 2 = 0 := by omega
          simp [hp, hp1, swap_graphs, get_src_graph, get_dest_graph]
        · have hp1 : (n + 1) % 2 = 0 := by omega
          simp [hp, hp1, swap_graphs, get_src_graph, get_dest_graph]
      · rw [h2]
        by_cases hp : n % 2 = 0
        · have hp1 : ¬(n + 1) % 2 = 0 := by omega
          simp [hp, hp1, swap_graphs, get_src_graph, get_dest_graph]
        · have hp1 : (n + 1) % 2 = 0 := by omega
          simp [hp, hp1, swap_graphs, get_src_graph, get_dest_graph]
      · rw [h3]
        rfl

/-- C4: after `n` calls to `swap_graphs()` the source/dest accessors
return the initial assignment for even `n` and the exchanged assignment
for odd `n`; `get_vertex_data_graph()` is unchanged by any number of
swaps, and a double swap is the identity on the whole factory state. -/
theorem swap_graphs_parity :
    ∀ (G : Type) (f : synchronous_scope_factory G) (n : Nat),
      (get_src_graph (swap_graphs^[n] f)
        = if n % 2 = 0 then get_src_graph f else get_dest_graph f) ∧
      (get_dest_graph (swap_graphs^[n] f)
        = if n % 2 = 0 then get_dest_graph f else get_src_graph f) ∧
      get_vertex_data_graph (swap_graphs^[n] f)
        = get_vertex_data_graph f ∧
      swap_graphs (swap_graphs f) = f := by
  intro G f n
  obtain ⟨h1, h2, h3⟩ := swap_iterate f n
  exact ⟨h1, h2, h3, rfl⟩

/-- C8: for `w < N`, `get_scope(w, v)` succeeds and returns the pooled
slot `w` itself (same object on every call with the same `w`); a later
`get_scope(w, v')` returns the same slot, now bound to `v'` (the latest
call overwrites the prior binding); and neither call touches any other
worker's slot or any of the three graph handles. -/
theorem get_scope_binds_worker_slot :
    ∀ (G : Type) (f : synchronous_scope_factory G) (w v v' : Nat),
      w < f.scopes.length →
      ∃ f1 f2,
        get_scope f w v = some (f1, w) ∧
        get_scope f1 w v' = some (f2, w) ∧
        f1.scopes[w]? = some (synchronous_scope.init
          f._srcgraph f._destgraph f._vertexdatagraph v) ∧
        f2.scopes[w]? = some (synchronous_scope.init
          f._srcgraph f._destgraph f._vertexdatagraph v') ∧
        (∀ u, u ≠ w → f1.scopes[u]? = f.scopes[u]?) ∧
        (∀ u, u ≠ w → f2.scopes[u]? = f.scopes[u]?) ∧
        f1._srcgraph = f._srcgraph ∧ f1._destgraph = f._destgraph ∧
        f1._vertexdatagraph = f._vertexdatagraph ∧
        f2._srcgraph = f._srcgraph ∧ f2._destgraph = f._destgraph ∧
        f2._vertexdatagraph = f._vertexdatagraph := by
  intro G f w v v' hw
  have hw1 : w < (f.scopes.set w (synchronous_scope.init
      f._srcgraph f._destgraph f._vertexdatagraph v)).length := by
    simpa using hw
  refine ⟨{ f with
      scopes := f.scopes.set w (synchronous_scope.init
        f._srcgraph f._destgraph f._vertexdatagraph v) },
    { f with
      scopes := (f.scopes.set w (synchronous_scope.init
          f._srcgraph f._destgraph f._vertexdatagraph v)).set w
        (synchronous_scope.init
          f._srcgraph f._destgraph f._vertexdatagraph v') },
    by simp [get_scope, hw], by simp [get_scope, hw1, hw], ?_, ?_, ?_, ?_,
    rfl, rfl, rfl, rfl, rfl, rfl⟩
  · simpa using List.getElem?_set_eq_of_lt _ hw
  · simpa using List.getElem?_set_eq_of_lt _ hw1
  · intro u hu
    simpa using List.getElem?_set_ne (Ne.symm hu)
  · intro u hu
    have e1 := List.getElem?_set_ne (l := f.scopes.set w
      (synchronous_scope.init f._srcgraph f._destgraph
        f._vertexdatagraph v))
      (a := synchronous_scope.init f._srcgraph f._destgraph
        f._vertexdatagraph v') (Ne.symm hu)
    have e2 := List.getElem?_set_ne (l := f.scopes)
      (a := synchronous_scope.init f._srcgraph f._destgraph
        f._vertexdatagraph v) (Ne.symm hu)
    simpa using e1.trans e2

/-- Two-worker factory over `Nat` graph handles `10` (source) and `20`
(dest). -/
def exFactory2 : synchronous_scope_factory Nat :=
  synchronous_scope_factory.make 10 20 2

/-- Witness for C8 at factory `exFactory2`, worker 1, vertices 5 then 7. -/
theorem get_scope_binds_worker_slot_witness :
    ∃ f1 f2,
      get_scope exFactory2 1 5 = some (f1, 1) ∧
      get_scope f1 1 7 = some (f2, 1) ∧
      f1.scopes[1]? = some (synchronous_scope.init
        exFactory2._srcgraph exFactory2._destgraph
        exFactory2._vertexdatagraph 5) ∧
      f2.scopes[1]? = some (synchronous_scope.init
        exFactory2._srcgraph exFactory2._destgraph
        exFactory2._vertexdatagraph 7) ∧
      (∀ u, u ≠ 1 → f1.scopes[u]? = exFactory2.scopes[u]?) ∧
      (∀ u, u ≠ 1 → f2.scopes[u]? = exFactory2.scopes[u]?) ∧
      f1._srcgraph = exFactory2._srcgraph ∧
      f1._destgraph = exFactory2._destgraph ∧
      f1._vertexdatagraph = exFactory2._vertexdatagraph ∧
      f2._srcgraph = exFactory2._srcgraph ∧
      f2._destgraph = exFactory2._destgraph ∧
      f2._vertexdatagraph = exFactory2._vertexdatagraph :=
  get_scope_binds_worker_slot Nat exFactory2 1 5 7 (by decide)

/-- C9: `get_scope` fails (the `assert`, modelled as `none`) exactly when
the worker id is out of range; under `cpuid < N` the call succeeds. -/
theorem get_scope_asserts_range :
    ∀ (G : Type) (f : synchronous_scope_factory G) (cpuid v : Nat),
      get_scope f cpuid v = none ↔ f.scopes.length ≤ cpuid := by
  intro G f cpuid v
  refine ⟨fun hn => ?_, fun hle => ?_⟩
  · by_cases h : cpuid < f.scopes.length
    · simp [get_scope, h] at hn
    · omega
  · have h : ¬cpuid < f.scopes.length := by omega
    simp [get_scope, h]

/-- C10: the vertex-data handle equals the construction-time dest handle,
and no operation — `swap_graphs` (which only exchanges the src/dest
roles), `get_scope`, `release_scope`, `set_default_scope` — ever changes
it, so `get_vertex_data_graph()` returns the construction-time dest graph
for the factory's entire lifetime. -/
theorem vertex_data_graph_fixed :
    ∀ (G : Type) (srcgraph destgraph : G) (ncpus : Nat),
      get_vertex_data_graph
        (synchronous_scope_factory.make srcgraph destgraph ncpus)
        = destgraph ∧
      (∀ f : synchronous_scope_factory G,
        get_vertex_data_graph (swap_graphs f) = get_vertex_data_graph f) ∧
      (∀ (f f' : synchronous_scope_factory G) (cpuid v r : Nat),
        get_scope f cpuid v = some (f', r) →
        get_vertex_data_graph f' = get_vertex_data_graph f) ∧
      (∀ (f : synchronous_scope_factory G) (sc : Nat),
        get_vertex_data_graph (release_scope f sc)
          = get_vertex_data_graph f) ∧
      (∀ (f : synchronous_scope_factory G) (r : Nat),
        get_vertex_data_graph (set_default_scope f r)
          = get_vertex_data_graph f) ∧
      (∀ n : Nat, get_vertex_data_graph (swap_graphs^[n]
        (synchronous_scope_factory.make srcgraph destgraph ncpus))
        = destgraph) := by
  intro G srcgraph destgraph ncpus
  refine ⟨rfl, fun f => rfl, ?_, fun f sc => rfl, fun f r => rfl, fun n => ?_⟩
  · intro f f' cpuid v r h
    unfold get_scope at h
    by_cases hlt : cpuid < f.scopes.length
    · simp [hlt] at h
      rw [← h.1]
      rfl
    · simp [hlt] at h
  · exact (swap_iterate _ n).2.2

/-- The factory `exFactory2` after `get_scope(0, 5)` rebound slot 0. -/
def exFactory2Bound : synchronous_scope_factory Nat :=
  { exFactory2 with
    scopes := exFactory2.scopes.set 0 (synchronous_scope.init
      exFactory2._srcgraph exFactory2._destgraph
      exFactory2._vertexdatagraph 5) }

/-- Witness for C10: the `get_scope` clause applied to the concrete
factory `exFactory2` and its rebound successor. -/
theorem vertex_data_graph_fixed_witness :
    get_vertex_data_graph exFactory2Bound
      = get_vertex_data_graph exFactory2 :=
  (vertex_data_graph_fixed Nat 10 20 2).2.2.1 exFactory2 exFactory2Bound
    0 5 0 (by decide)

end GraphLab
